import Mathlib

/-!
Verification of the Themis federation core against its specification.

The TypeScript services are shallowly embedded: the persistent store is an
explicit `DB` value threaded through every operation, rejected promises and
thrown HTTP exceptions are `Except Err`, and JavaScript object identity
(relevant because TypeORM returns a fresh entity object from every query)
is modelled by an allocation counter `nextRef` stamped on loaded entity
instances.  Definitions follow the source files; components of the
repository that are not present under `src/` (the ActivityService, the
ApPostService, a few AP helper definitions) are modelled from the
specification and marked as such in their doc comments.
-/

deriving instance DecidableEq for Except

namespace Themis

/-- Error kinds produced by the embedded services: the NestJS exception
classes thrown by the dispatchers, `rejected` for a service-level
`Promise.reject(new Error(msg))`, `typeError` for a JavaScript property
access on `undefined`, and `deliveryFailed` for a rejection reported by the
external delivery capability. -/
inductive Err where
  | badRequest (msg : String)
  | notFound (msg : String)
  | notImplemented
  | teapot
  | internalError (msg : String)
  | typeError
  | rejected (msg : String)
  | deliveryFailed
deriving DecidableEq

/-- A federation server: `scheme`, `host`, `port` tuple (spec section 3).
`port` is `none` when the column is unset. -/
structure Server where
  scheme : String
  host : String
  port : Option Nat
deriving DecidableEq

/-- A row of the user table (user.entity): database id, name, nullable
`uri` column, home server, and the `liked` many-to-many relation kept as
the list of liked post row ids. -/
structure UserRow where
  id : Nat
  name : String
  uri : Option String
  server : Server
  likedPostIds : List Nat
deriving DecidableEq

/-- The eagerly-loaded ActorEntity attached to a group
(group.entity: `@OneToOne(..., { eager: true }) actor`); only the
`followers` collection URI is consumed by the embedded code paths. -/
structure ActorEnt where
  followers : String
deriving DecidableEq

/-- A row of the groups table (group.entity): id, name, nullable `uri`,
home server, the eager `actor` relation (`none` when the row has no actor
attached), and the `followingUsers` many-to-many relation as a list of
user row ids.  An entry can be `none` because `addFollower` can push the
JavaScript value `undefined` into the relation array. -/
structure GroupRow where
  id : Nat
  name : String
  uri : Option String
  server : Server
  actor : Option ActorEnt
  followerIds : List (Option Nat)
deriving DecidableEq

/-- A row of the post table (post.entity): id, locally generated `uuid`,
nullable `uri`, owning server, and the soft-delete flag. -/
structure PostRow where
  id : Nat
  uuid : String
  uri : Option String
  server : Server
  deleted : Bool
deriving DecidableEq

/-- The JavaScript value found in an activity payload under `audience`:
absent, an `Array`, or some other value (the `instanceof Array` check in
`handleIncoming` distinguishes the three). -/
inductive AudienceVal where
  | undef
  | arr (xs : List String)
  | other
deriving DecidableEq

/-- A raw ActivityPub activity payload as received by the dispatchers:
the fields read by the embedded code (`id`, `type`, `actor`, `object`,
`target`, `audience`, `content`), each optional where the source checks
for absence. -/
structure Payload where
  id : Option String
  type : String
  actor : Option String
  object : Option String
  target : Option String
  audience : AudienceVal
  content : Option String
deriving DecidableEq

/-- A row of the activity table (activity.entity, spec section 3): row id,
canonical `uri` (absent until persisted), `type`, mutually exclusive
`sourceUser`/`sourceGroup` (user and group row ids), `targetUser` and
`targetPost`, the accumulating `destinationGroups` relation (`none` models
the property being absent on an in-memory shell, `some` a loaded array of
group row ids), `destinationUsers`, and the verbatim payload. -/
structure ActRec where
  rid : Nat
  uri : Option String
  type : String
  sourceUser : Option Nat
  sourceGroup : Option Nat
  targetUser : Option Nat
  targetPost : Option Nat
  destinationGroups : Option (List Nat)
  destinationUsers : List (Option Nat)
  activityObject : Payload
deriving DecidableEq

/-- A freshly loaded user entity object: `ref` is its JavaScript object
identity (allocation index), `userId` the underlying row id, `uri` the
value of its uri column at load time.  Two loads of the same row yield
distinct `ref`s, exactly as TypeORM creates a new object per query. -/
structure UInst where
  ref : Nat
  userId : Nat
  uri : Option String
deriving DecidableEq

/-- The whole observable state: the configured local server, the four
tables, the log of invocations of the external delivery capability
(activity uri and target list per call), the set of target URIs for which
the capability rejects, and the object-allocation counter. -/
structure DB where
  localServer : Server
  users : List UserRow
  groups : List GroupRow
  posts : List PostRow
  activities : List ActRec
  delivered : List (Option String × List (Option String))
  deliverFails : List String
  nextRef : Nat
deriving DecidableEq

/-- Model of the external uri-js `URI.serialize` call for the component
records used in this repository (scheme, host, optional port, path).
Normalisation performed by the library (lowercasing, default-port elision)
is not modelled; the inputs used here are already in normal form. -/
def uriSerialize (scheme host : String) (port : Option Nat) (path : String) : String :=
  scheme ++ "://" ++ host ++ (match port with
    | none => ""
    | some p => ":" ++ toString p) ++ path

namespace UserService

/-- UserService.findLocalByName (user.service.ts): `findOneOrFail` on
name plus local server, rejecting with an Error message when absent. -/
def findLocalByName (st : DB) (name : String) : Except Err UserRow :=
  match st.users.find? (fun u => u.name == name && u.server == st.localServer) with
  | some u => .ok u
  | none => .error (.rejected ("User " ++ name ++ " does not exist on this server"))

/-- Modelled from the spec: `UserService.findByUri` is called by the group
inbox Follow path but is not under src/.  Per section 3 the `uri` column
is the unique federation identity of an actor, so this is a repository
lookup by uri, returning the row as a freshly allocated entity object
(`none` both when no uri is supplied and when no row matches, matching a
`findOne` that yields `undefined`). -/
def findByUri (st : DB) (uri? : Option String) : Option UInst × DB :=
  match uri? with
  | none => (none, st)
  | some u =>
    match st.users.find? (fun r => r.uri == some u) with
    | none => (none, st)
    | some r => (some ⟨st.nextRef, r.id, r.uri⟩, { st with nextRef := st.nextRef + 1 })

/-- Repository `save` for a user entity: update the row with the same id,
or insert when the id is new. -/
def save (st : DB) (u : UserRow) : DB :=
  if st.users.any (fun q => q.id == u.id) then
    { st with users := st.users.map (fun q => if q.id == u.id then u else q) }
  else
    { st with users := st.users ++ [u] }

/-- UserService.getLikes (user.service.ts): reload the user row by id with
the `liked` relation populated. -/
def getLikes (st : DB) (u : UserRow) : Option UserRow :=
  st.users.find? (fun q => q.id == u.id)

/-- UserService.addLike (user.service.ts): reload the user with likes,
push the post onto the `liked` array unconditionally, and save.  A
`getLikes` miss leaves `result` undefined and the property access throws. -/
def addLike (st : DB) (u : UserRow) (post : PostRow) : Except Err UserRow × DB :=
  match getLikes st u with
  | none => (.error .typeError, st)
  | some r =>
    let r2 := { r with likedPostIds := r.likedPostIds ++ [post.id] }
    (.ok r2, save st r2)

end UserService

namespace GroupService

/-- GroupService.findLocalByName (group.service.ts): `findOneOrFail` on
name plus local server, rejecting with an Error message when absent. -/
def findLocalByName (st : DB) (name : String) : Except Err GroupRow :=
  match st.groups.find? (fun g => g.name == name && g.server == st.localServer) with
  | some g => .ok g
  | none => .error (.rejected ("Group " ++ name ++ " does not exist on this server"))

/-- Repository `save` for a group entity: update the row with the same id,
or insert when the id is new. -/
def save (st : DB) (g : GroupRow) : DB :=
  if st.groups.any (fun q => q.id == g.id) then
    { st with groups := st.groups.map (fun q => if q.id == g.id then g else q) }
  else
    { st with groups := st.groups ++ [g] }

/-- Materialise the `followingUsers` relation of a group row as entity
objects: each related row entry becomes a freshly allocated `UInst`
carrying the uri column of the matching user row (a dangling id keeps an
object with no uri), and an `undefined` entry stays `undefined`. -/
def allocInstances (st : DB) : List (Option Nat) → List (Option UInst) × DB
  | [] => ([], st)
  | none :: rest =>
    let (l, st1) := allocInstances st rest
    (none :: l, st1)
  | some uid :: rest =>
    let uri := match st.users.find? (fun u => u.id == uid) with
      | some u => u.uri
      | none => none
    let (l, st1) := allocInstances { st with nextRef := st.nextRef + 1 } rest
    (some ⟨st.nextRef, uid, uri⟩ :: l, st1)

/-- The `findOne(group.id, { relations: ["followingUsers"] })` query used
by both `getFollowers` and `addFollower`: `none` when the row is absent
(the JavaScript result is `undefined`), otherwise the row together with
its follower relation loaded as fresh entity objects. -/
def findOneWithFollowingUsers (st : DB) (gid : Nat) :
    Option (GroupRow × List (Option UInst)) × DB :=
  match st.groups.find? (fun g => g.id == gid) with
  | none => (none, st)
  | some row =>
    let (insts, st1) := allocInstances st row.followerIds
    (some (row, insts), st1)

/-- GroupService.getFollowers (group.service.ts): reload the group by id
with the `followingUsers` relation populated. -/
def getFollowers (st : DB) (g : GroupRow) :
    Option (GroupRow × List (Option UInst)) × DB :=
  findOneWithFollowingUsers st g.id

/-- JavaScript strict equality as used by `Array.prototype.includes` on
the values found in the follower relation: `undefined === undefined` is
true, two entity objects compare by reference. -/
def jsEqInst : Option UInst → Option UInst → Bool
  | none, none => true
  | some a, some b => a.ref == b.ref
  | _, _ => false

/-- GroupService.addFollower (group.service.ts): reload the group with its
followers, return `false` without saving when `includes(user)` holds,
otherwise push the user and save, returning `true`.  The
`if (!fullGroup.followingUsers)` branch of the source cannot fire here: a
relation requested through `relations: ["followingUsers"]` always loads as
an array, and an array (even empty) is truthy in JavaScript.  A missing
group row leaves `fullGroup` undefined and the property access throws. -/
def addFollower (st : DB) (g : GroupRow) (user? : Option UInst) : Except Err Bool × DB :=
  match findOneWithFollowingUsers st g.id with
  | (none, st1) => (.error .typeError, st1)
  | (some (row, insts), st1) =>
    if insts.any (fun i => jsEqInst i user?) then
      (.ok false, st1)
    else
      let row2 := { row with
        followerIds := (insts ++ [user?]).map (fun i? => i?.map (fun i => i.userId)) }
      (.ok true, save st1 row2)

/-- GroupService.idForGroup (group.service.ts): the stored uri when the
column is truthy (non-null, non-empty), otherwise the URI serialised from
the home server and the path `/group/{name}`. -/
def idForGroup (group : GroupRow) : String :=
  match group.uri with
  | some s =>
    if s != "" then s
    else uriSerialize group.server.scheme group.server.host group.server.port
      ("/group/" ++ group.name)
  | none => uriSerialize group.server.scheme group.server.host group.server.port
      ("/group/" ++ group.name)

end GroupService

/-- An ActivityPub paged collection as served by the federation endpoints
(spec section 6): not persisted, a pure projection. -/
structure Collection where
  id : String
  type : String
  totalItems : Nat
  orderedItems : List String
  next : Option String
  prev : Option String
deriving DecidableEq

namespace ActivityService

/-- Modelled from the spec: `ActivityService.findByUri` is not under src/.
Section 4.2: dedup lookup, URIs are the federation-wide identity of an
activity; absent gives `undefined`. -/
def findByUri (st : DB) (uri? : Option String) : Option ActRec :=
  match uri? with
  | none => none
  | some u => st.activities.find? (fun a => a.uri == some u)

/-- Modelled from the spec: `ActivityService.create` is not under src/.
Section 4.2: builds an unsaved Activity shell from a raw payload without
persisting; per section 3 the shell has no `uri` (absence signals not yet
known to this server) and no loaded relations. -/
def create (p : Payload) : ActRec :=
  { rid := 0, uri := none, type := p.type, sourceUser := none, sourceGroup := none,
    targetUser := none, targetPost := none, destinationGroups := none,
    destinationUsers := [], activityObject := p }

/-- Append each element of the second list that is not already present:
the set-union semantics of the accumulating `destinationGroups` relation
(spec section 3: append-only and deduplicated by actor). -/
def addAll : List Nat → List Nat → List Nat
  | xs, [] => xs
  | xs, y :: ys => addAll (if y ∈ xs then xs else xs ++ [y]) ys

/-- The canonical key a save is upserted under: the persisted uri when
present, otherwise the payload id (section 3: the uri of a persisted
activity is its federation identity, taken from the payload). -/
def keyOf (e : ActRec) : Option String :=
  match e.uri with
  | some u => some u
  | none => e.activityObject.id

/-- Merging an entity into the already-persisted row with the same uri:
accumulating `destinationGroups` are unioned (deduplicated by actor, spec
section 3), the payload and remaining fields take the incoming values, row
identity is kept. -/
def mergeRec (old e : ActRec) : ActRec :=
  { e with
    rid := old.rid
    uri := old.uri
    destinationGroups :=
      some (addAll (old.destinationGroups.getD []) (e.destinationGroups.getD [])) }

/-- Modelled from the spec: `ActivityService.save` is not under src/.
Section 4.2: upsert; section 5: the store relies on a unique constraint on
`uri`, so a save whose canonical key matches a persisted row merges its
accumulating fields into that row instead of inserting, and an insert
stamps the canonical uri onto the new row. -/
def save (st : DB) (e : ActRec) : ActRec × DB :=
  match keyOf e with
  | some u =>
    match st.activities.find? (fun a => a.uri == some u) with
    | some a0 =>
      (mergeRec a0 e,
       { st with activities :=
          st.activities.map (fun a => if a.uri == some u then mergeRec a e else a) })
    | none =>
      let newRec := { e with
        rid := st.activities.length
        uri := some u
        destinationGroups := some (addAll [] (e.destinationGroups.getD [])) }
      (newRec, { st with activities := st.activities ++ [newRec] })
  | none =>
    let newRec := { e with
      rid := st.activities.length
      uri := none
      destinationGroups := some (addAll [] (e.destinationGroups.getD [])) }
    (newRec, { st with activities := st.activities ++ [newRec] })

/-- Modelled from the spec: `ActivityService.deliverTo` is not under src/.
Section 4.2: invokes the external delivery capability for each target
independently (failure of one target does not abort the others, so every
call is logged with its full target list); the returned promise settles
with a rejection when any target is in the failing set. -/
def deliverTo (st : DB) (act : ActRec) (targets : List (Option String)) :
    Except Err Unit × DB :=
  let st1 := { st with delivered := st.delivered ++ [(act.uri, targets)] }
  if targets.any (fun t? => match t? with
      | some t => st.deliverFails.contains t
      | none => false) then
    (.error .deliveryFailed, st1)
  else
    (.ok (), st1)

/-- Modelled from the spec: `ActivityService.createAcceptActivity` is not
under src/.  Section 4.3: synthesize an Accept referencing the original
Follow, issued by the group and targeted at the follower; the call site
passes `(group.uri, activity.id, user.uri)` and the Accept dispatch later
reads `object` (the Follow uri) and `target` (the follower uri).  Being
locally synthesized it carries no id of its own. -/
def createAcceptActivity (groupUri followId userUri : Option String) : Payload :=
  { id := none, type := "Accept", actor := groupUri, object := followId,
    target := userUri, audience := .undef, content := none }

/-- Modelled from the spec: `ActivityService.createPagedCollection` is not
under src/.  Sections 4.5 and 6: project an ordered sequence into a page
object with the total item count, the items of the 1-indexed requested
page, and next/previous links when applicable (a next page exists when
items remain past this page, a previous one when the page is past 1);
out-of-range pages give an empty item list. -/
def createPagedCollection (items : List String) (pageSize : Nat)
    (collectionUri : String) (page : Nat) : Collection :=
  { id := collectionUri
    type := "OrderedCollectionPage"
    totalItems := items.length
    orderedItems := (items.drop ((page - 1) * pageSize)).take pageSize
    next := if page * pageSize < items.length then
        some (collectionUri ++ "?page=" ++ toString (page + 1))
      else none
    prev := if 1 < page then some (collectionUri ++ "?page=" ++ toString (page - 1))
      else none }

end ActivityService

namespace PostService

/-- PostService.isLocalPost (part_002): the post originated on this server
when the configured local server matches its owning server on host and
scheme, and on port unless the post server has no port recorded. -/
def isLocalPost (st : DB) (post : PostRow) : Bool :=
  st.localServer.host == post.server.host &&
  st.localServer.scheme == post.server.scheme &&
  (st.localServer.port == post.server.port || post.server.port == none)

/-- Repository `save` for a post entity: update the row with the same id,
or insert when the id is new. -/
def save (st : DB) (p : PostRow) : DB :=
  if st.posts.any (fun q => q.id == p.id) then
    { st with posts := st.posts.map (fun q => if q.id == p.id then p else q) }
  else
    { st with posts := st.posts ++ [p] }

/-- PostService.softDelete (part_002): set the `deleted` flag and save
when the post is local, otherwise throw BadRequest without touching it. -/
def softDelete (st : DB) (post : PostRow) : Except Err PostRow × DB :=
  if isLocalPost st post then
    let p2 := { post with deleted := true }
    (.ok p2, save st p2)
  else
    (.error (.badRequest "Can't delete a non-local post"), st)

/-- PostService.findByUuid (part_002): `findOne` on the uuid column; a
miss leaves the entity undefined and the following `children` access
throws.  The descendant-tree loading of the source returns the same row
with its children attached and is not modelled (no claim concerns
children). -/
def findByUuid (st : DB) (uuid : String) : Except Err PostRow :=
  match st.posts.find? (fun p => p.uuid == uuid) with
  | none => .error .typeError
  | some p => .ok p

end PostService

namespace ApPostService

/-- Modelled from the spec: `ApPostService.getPostEntityByUri` is not
under src/.  Section 4.3 (Like precondition): the activity `object` must
resolve to a known Post URI; a miss rejects as NotFound (section 7, lookup
failures inside dispatch become domain-appropriate errors). -/
def getPostEntityByUri (st : DB) (uri? : Option String) : Except Err PostRow :=
  match uri? with
  | none => .error (.notFound "No such post")
  | some u =>
    match st.posts.find? (fun p => p.uri == some u) with
    | some p => .ok p
    | none => .error (.notFound "No such post")

/-- Modelled from the spec: `ApPostService.deletePostFromActivity` is not
under src/.  Section 4.3 (Delete row): the referenced post is resolved by
URI and soft-deleted through the domain post service. -/
def deletePostFromActivity (st : DB) (activity : Payload) : Except Err PostRow × DB :=
  match getPostEntityByUri st activity.object with
  | .error e => (.error e, st)
  | .ok p => PostService.softDelete st p

/-- Modelled from the spec: the `createNewGlobalPost` and
`submitNewGlobalPost` pair of ApPostService is not under src/.
Section 4.3 (Create row): a Post entity is built from the activity object
and persisted via the domain post service; the uuid is locally generated.
No claim inspects the created post, so only the persisted shape matters. -/
def submitNewGlobalPost (st : DB) (activity : Payload) : PostRow × DB :=
  let p : PostRow :=
    { id := st.posts.length
      uuid := "uuid-" ++ toString st.posts.length
      uri := activity.object
      server := st.localServer
      deleted := false }
  (p, { st with posts := st.posts ++ [p] })

end ApPostService

namespace ApUserService

/-- ApUserService.idForUser (part_000): the stored uri when the column is
truthy (non-null, non-empty), otherwise the URI serialised from the home
server and the path `/user/{name}`. -/
def idForUser (user : UserRow) : String :=
  match user.uri with
  | some s =>
    if s != "" then s
    else uriSerialize user.server.scheme user.server.host user.server.port
      ("/user/" ++ user.name)
  | none => uriSerialize user.server.scheme user.server.host user.server.port
      ("/user/" ++ user.name)

/-- The inbox collection URI of a user actor, as built by
`createActor` (part_000): the actor id followed by the inbox address
segment.  The `AP.InboxAddress` constant is not under src/; its value
`inbox` is taken from the spec (section 6 actor representation,
`"inbox": "<id>/inbox/"`). -/
def inboxUriForUser (user : UserRow) : String :=
  idForUser user ++ "/" ++ "inbox" ++ "/"

/-- Modelled from the spec: `activityFromObject` (the create-activity
helper) is not under src/.  Section 4.3: a bare content object posted to a
user outbox is wrapped in an implicit Create issued by that user. -/
def activityFromObject (data : Payload) (user : UserRow) : Payload :=
  { id := none, type := "Create", actor := user.uri, object := data.object,
    target := none, audience := data.audience, content := data.content }

/-- ApUserService.acceptPostRequest (part_000): the user outbox dispatch.
A bare object (non-null `content`) is wrapped in a Create; the switch on
the activity type then creates a post, soft-deletes one, records a like,
rejects the recognised-but-unimplemented types with NotImplemented, and
anything else with BadRequest naming the type. -/
def acceptPostRequest (st : DB) (username : String) (data : Payload) :
    Except Err Payload × DB :=
  match UserService.findLocalByName st username with
  | .error e => (.error e, st)
  | .ok user =>
    let activity := if data.content == none then data else activityFromObject data user
    if activity.type = "Create" then
      let (postEntity, st1) := ApPostService.submitNewGlobalPost st activity
      let activityEntity : ActRec :=
        { rid := 0, uri := none, type := activity.type, sourceUser := none,
          sourceGroup := none, targetUser := some user.id,
          targetPost := some postEntity.id, destinationGroups := none,
          destinationUsers := [], activityObject := activity }
      let (saved, st2) := ActivityService.save st1 activityEntity
      (.ok saved.activityObject, st2)
    else if activity.type = "Delete" then
      match ApPostService.deletePostFromActivity st activity with
      | (.error e, st1) => (.error e, st1)
      | (.ok deletedPost, st1) =>
        let activityEntity : ActRec :=
          { rid := 0, uri := none, type := activity.type, sourceUser := none,
            sourceGroup := none, targetUser := some user.id,
            targetPost := some deletedPost.id, destinationGroups := none,
            destinationUsers := [], activityObject := activity }
        let (saved, st2) := ActivityService.save st1 activityEntity
        (.ok saved.activityObject, st2)
    else if activity.type = "Update" ∨ activity.type = "Follow" ∨
        activity.type = "Add" ∨ activity.type = "Remove" then
      (.error .notImplemented, st)
    else if activity.type = "Like" then
      match ApPostService.getPostEntityByUri st activity.object with
      | .error e => (.error e, st)
      | .ok likedPost =>
        match UserService.addLike st user likedPost with
        | (.error e, st1) => (.error e, st1)
        | (.ok likingUser, st1) =>
          let activityEntity : ActRec :=
            { rid := 0, uri := none, type := activity.type, sourceUser := none,
              sourceGroup := none, targetUser := some likingUser.id,
              targetPost := some likedPost.id, destinationGroups := none,
              destinationUsers := [], activityObject := activity }
          let (saved, st2) := ActivityService.save st1 activityEntity
          (.ok saved.activityObject, st2)
    else if activity.type = "Block" ∨ activity.type = "Undo" then
      (.error .notImplemented, st)
    else
      (.error (.badRequest ("Invalid activity type " ++ activity.type)), st)

end ApUserService

/-- The differing shapes `handleIncoming` can resolve with: the activity
returned by the fan-out (Create path), the payload returned by the
self-submitted Accept dispatch, the boolean `false` of an already-known
Follow, or `undefined` when the Create path falls through its TODO
branch. -/
inductive HandleResult where
  | act (a : ActRec)
  | obj (p : Payload)
  | bool (b : Bool)
  | undef
deriving DecidableEq

namespace ApGroupService

/-- ApGroupService.acceptPostRequest (part_001): the group outbox
dispatch.  Accept looks up the referenced Follow activity, persists the
Accept with the requester as destination and delivers it to the
activity target (this delivery is awaited, so its rejection propagates);
every other recognised type throws ImATeapot, anything else BadRequest
naming the type.  A missed Follow lookup leaves `request` undefined and
the `sourceUser` access throws. -/
def acceptPostRequest (st : DB) (groupname : String) (data : Payload) :
    Except Err Payload × DB :=
  match GroupService.findLocalByName st groupname with
  | .error e => (.error e, st)
  | .ok group =>
    let activity := data
    if activity.type = "Accept" then
      match ActivityService.findByUri st activity.object with
      | none => (.error .typeError, st)
      | some request =>
        let toAccept := request.sourceUser
        let acceptEntity : ActRec :=
          { rid := 0, uri := none, type := activity.type, sourceUser := none,
            sourceGroup := some group.id, targetUser := none, targetPost := none,
            destinationGroups := none, destinationUsers := [toAccept],
            activityObject := activity }
        let (act, st1) := ActivityService.save st acceptEntity
        match ActivityService.deliverTo st1 act [activity.target] with
        | (.ok _, st2) => (.ok act.activityObject, st2)
        | (.error e, st2) => (.error e, st2)
    else if activity.type = "Create" ∨ activity.type = "Update" ∨
        activity.type = "Delete" ∨ activity.type = "Follow" ∨
        activity.type = "Add" ∨ activity.type = "Remove" ∨
        activity.type = "Like" ∨ activity.type = "Block" ∨
        activity.type = "Undo" ∨ activity.type = "Reject" then
      (.error .teapot, st)
    else
      (.error (.badRequest ("Invalid activity type " ++ activity.type)), st)

/-- The filter-then-map of `deliverToFollowers` (part_001): keep the uri
of every loaded follower whose uri differs (strict inequality) from the
uri of the activity source user.  Both accesses happen inside the filter
callback, so an undefined follower entry or an undefined
`activity.sourceUser` throws only when some element is visited; the
source user entity on the loaded activity is its user row. -/
def filterMapTargets (st : DB) (src? : Option Nat) :
    List (Option UInst) → Except Err (List (Option String))
  | [] => .ok []
  | none :: _ => .error .typeError
  | some i :: rest =>
    match src? with
    | none => .error .typeError
    | some uid =>
      let sourceUri := match st.users.find? (fun u => u.id == uid) with
        | some u => u.uri
        | none => none
      match filterMapTargets st src? rest with
      | .error e => .error e
      | .ok ts => .ok (if i.uri != sourceUri then i.uri :: ts else ts)

/-- ApGroupService.deliverToFollowers (part_001): load the group
followers, drop the original sender, map the rest to their uri column and
hand the list to `ActivityService.deliverTo`.  The `deliverTo` promise is
not awaited, so a delivery rejection never reaches the try/catch here and
the InternalServerError re-throw below it cannot trigger: the function
resolves with the activity unconditionally once the target list is
computed. -/
def deliverToFollowers (st : DB) (activity : ActRec) (group : GroupRow) :
    Except Err ActRec × DB :=
  match GroupService.getFollowers st group with
  | (none, st1) => (.error .typeError, st1)
  | (some (_row, insts), st1) =>
    match filterMapTargets st1 activity.sourceUser insts with
    | .error e => (.error e, st1)
    | .ok urisWithoutSender =>
      let (_result, st2) := ActivityService.deliverTo st1 activity urisWithoutSender
      (.ok activity, st2)

/-- ApGroupService.handleIncoming (part_001): the group inbox path.  The
activity is found by its external uri or created as a shell, the
receiving group is pushed onto `destinationGroups` (initialising the
array when the property is absent), and the switch relays known Creates
to followers (stamping the group followers collection into `audience`),
auto-accepts Follows (saving first, then adding the follower and
self-submitting an Accept through the group outbox when the add reports a
new follower), and throws NotImplemented for every other type. -/
def handleIncoming (st : DB) (groupname : String) (data : Payload) :
    Except Err HandleResult × DB :=
  match GroupService.findLocalByName st groupname with
  | .error e => (.error e, st)
  | .ok group =>
    let activity := data
    let found := ActivityService.findByUri st activity.id
    let activityEntity0 := match found with
      | some a => a
      | none => ActivityService.create activity
    let activityEntity := match activityEntity0.destinationGroups with
      | some gs => { activityEntity0 with destinationGroups := some (gs ++ [group.id]) }
      | none => { activityEntity0 with destinationGroups := some [group.id] }
    if activity.type = "Create" then
      match activityEntity.uri with
      | some _ =>
        let entity2 := { activityEntity with
          destinationGroups :=
            some ((activityEntity.destinationGroups.getD []) ++ [group.id]) }
        let audienceResult : Except Err Payload :=
          match activity.audience with
          | .undef =>
            match group.actor with
            | none => .error .typeError
            | some actor => .ok { activity with audience := .arr [actor.followers] }
          | .arr xs =>
            match group.actor with
            | none => .error .typeError
            | some actor => .ok { activity with audience := .arr (xs ++ [actor.followers]) }
          | .other => .error (.badRequest "")
        match audienceResult with
        | .error e => (.error e, st)
        | .ok activity2 =>
          let entity3 := { entity2 with activityObject := activity2 }
          let (saved, st1) := ActivityService.save st entity3
          match deliverToFollowers st1 saved group with
          | (.ok a, st2) => (.ok (.act a), st2)
          | (.error e, st2) => (.error e, st2)
      | none => (.ok .undef, st)
    else if activity.type = "Follow" then
      let (user?, st1) := UserService.findByUri st activity.actor
      let (_saved, st2) := ActivityService.save st1 activityEntity
      match GroupService.addFollower st2 group user? with
      | (.error e, st3) => (.error e, st3)
      | (.ok result, st3) =>
        if result then
          match user? with
          | none => (.error .typeError, st3)
          | some user =>
            let accept := ActivityService.createAcceptActivity group.uri activity.id user.uri
            match acceptPostRequest st3 group.name accept with
            | (.ok response, st4) => (.ok (.obj response), st4)
            | (.error e, st4) => (.error e, st4)
        else (.ok (.bool false), st3)
    else
      (.error .notImplemented, st)

/-- ApGroupService.followingForGroup (part_001): Themis groups follow
nobody, so the method returns an empty array regardless of the state of
the store or of the named group. -/
def followingForGroup (_st : DB) (_name : String) : List String :=
  []

end ApGroupService

/-! ### Concrete fixtures used by the claim theorems and witnesses -/

/-- Fixture: payload of a Follow of group `g` by the remote user bob. -/
def c2follow : Payload :=
  { id := some "http://r.example/act/f1", type := "Follow",
    actor := some "http://r.example/user/bob", object := none, target := none,
    audience := .undef, content := none }

/-- Fixture for claim C2: bob already follows group `g` (his row id is in
the follower relation) and the Follow activity from the first submission
is already persisted under its external uri. -/
def c2db : DB :=
  { localServer := ⟨"http", "local.example", some 3000⟩
    users := [⟨1, "bob", some "http://r.example/user/bob", ⟨"http", "r.example", none⟩, []⟩]
    groups := [⟨1, "g", some "http://local.example/group/g",
      ⟨"http", "local.example", some 3000⟩,
      some ⟨"http://local.example/group/g/followers/"⟩, [some 1]⟩]
    posts := []
    activities := [⟨0, some "http://r.example/act/f1", "Follow", none, none, none,
      none, some [1], [], c2follow⟩]
    delivered := []
    deliverFails := []
    nextRef := 0 }

/-- Fixture: remote user u1, a follower of the claim C3 group. -/
def c3u1 : UserRow :=
  ⟨1, "u1", some "http://r.example/user/u1", ⟨"http", "r.example", none⟩, []⟩

/-- Fixture: remote user u3, a follower of the claim C3 group. -/
def c3u3 : UserRow :=
  ⟨3, "u3", some "http://r.example/user/u3", ⟨"http", "r.example", none⟩, []⟩

/-- Fixture: the claim C3 group with followers u1, u2, u3. -/
def c3group : GroupRow :=
  ⟨1, "g", some "http://local.example/group/g", ⟨"http", "local.example", some 3000⟩,
    some ⟨"http://local.example/group/g/followers/"⟩, [some 1, some 2, some 3]⟩

/-- Fixture: a persisted Create activity sourced by u2. -/
def c3act : ActRec :=
  ⟨0, some "http://r.example/act/9", "Create", some 2, none, none, none, some [1], [],
    ⟨some "http://r.example/act/9", "Create", some "http://r.example/user/u2", none,
      none, .undef, none⟩⟩

/-- Fixture for claim C3: three followers u1, u2, u3 of one group, and an
activity sourced by u2 about to be fanned out. -/
def c3db : DB :=
  { localServer := ⟨"http", "local.example", some 3000⟩
    users := [c3u1,
      ⟨2, "u2", some "http://r.example/user/u2", ⟨"http", "r.example", none⟩, []⟩,
      c3u3]
    groups := [c3group]
    posts := []
    activities := [c3act]
    delivered := []
    deliverFails := []
    nextRef := 0 }

/-- Fixture for claim C4: a local user alice and a local group g with no
other state. -/
def c4db : DB :=
  { localServer := ⟨"http", "local.example", some 3000⟩
    users := [⟨5, "alice", some "http://local.example/user/alice",
      ⟨"http", "local.example", some 3000⟩, []⟩]
    groups := [⟨1, "g", some "http://local.example/group/g",
      ⟨"http", "local.example", some 3000⟩,
      some ⟨"http://local.example/group/g/followers/"⟩, []⟩]
    posts := []
    activities := []
    delivered := []
    deliverFails := []
    nextRef := 0 }

/-- Fixture: the claim C8 group with followers u1 (the activity source)
and u2. -/
def c8group : GroupRow :=
  ⟨1, "g", some "http://local.example/group/g", ⟨"http", "local.example", some 3000⟩,
    some ⟨"http://local.example/group/g/followers/"⟩, [some 1, some 2]⟩

/-- Fixture: a persisted Create activity sourced by u1, to be fanned out
to the remaining follower u2. -/
def c8act : ActRec :=
  ⟨0, some "http://r.example/act/9", "Create", some 1, none, none, none, some [1], [],
    ⟨some "http://r.example/act/9", "Create", some "http://r.example/user/u1", none,
      none, .undef, none⟩⟩

/-- Fixture for claim C8: the delivery capability rejects for the inbox of
u2, the one fan-out target of the activity. -/
def c8db : DB :=
  { localServer := ⟨"http", "local.example", some 3000⟩
    users := [⟨1, "u1", some "http://r.example/user/u1", ⟨"http", "r.example", none⟩, []⟩,
      ⟨2, "u2", some "http://r.example/user/u2", ⟨"http", "r.example", none⟩, []⟩]
    groups := [c8group]
    posts := []
    activities := [c8act]
    delivered := []
    deliverFails := ["http://r.example/user/u2"]
    nextRef := 0 }

/-- Fixture: the local user of the claim C10 witness. -/
def c10user : UserRow :=
  ⟨5, "alice", some "http://local.example/user/alice",
    ⟨"http", "local.example", some 3000⟩, []⟩

/-- Fixture: the post liked in the claim C10 witness. -/
def c10post : PostRow :=
  ⟨1, "uu-1", some "http://local.example/post/uu-1",
    ⟨"http", "local.example", some 3000⟩, false⟩

/-- Fixture: a Like activity for the claim C10 post. -/
def c10like : Payload :=
  ⟨none, "Like", none, some "http://local.example/post/uu-1", none, .undef, none⟩

/-- Fixture for the claim C10 witness: alice and one likeable post. -/
def c10db : DB :=
  { localServer := ⟨"http", "local.example", some 3000⟩
    users := [c10user]
    groups := []
    posts := [c10post]
    activities := []
    delivered := []
    deliverFails := []
    nextRef := 0 }

/-- Fixture: the group of the claim C1 witness. -/
def c1group : GroupRow :=
  ⟨1, "g", some "http://local.example/group/g", ⟨"http", "local.example", some 3000⟩,
    some ⟨"http://local.example/group/g/followers/"⟩, []⟩

/-- Fixture: an inbound Follow payload carrying an external uri, used by
the claim C1 witness. -/
def c1follow : Payload :=
  { id := some "http://r.example/act/f1", type := "Follow",
    actor := some "http://r.example/user/bob", object := none, target := none,
    audience := .undef, content := none }

/-- Fixture for the claim C1 witness: one local group, one known remote
user, an empty activity store. -/
def c1db : DB :=
  { localServer := ⟨"http", "local.example", some 3000⟩
    users := [⟨1, "bob", some "http://r.example/user/bob", ⟨"http", "r.example", none⟩, []⟩]
    groups := [c1group]
    posts := []
    activities := []
    delivered := []
    deliverFails := []
    nextRef := 0 }

/-! ### The store invariant of claim C1 -/

/-- Boolean freedom from duplicates of a list of row ids. -/
def noDupB : List Nat → Bool
  | [] => true
  | x :: l => l.all (fun y => y != x) && noDupB l

/-- Boolean pairwise distinctness of the persisted activity uris: a row
carrying a uri is the only row carrying it (rows without a uri are
unconstrained).  This is the unique `uri` constraint the store relies on
(spec section 5). -/
def urisOk : List ActRec → Bool
  | [] => true
  | a :: l =>
    (match a.uri with
     | none => true
     | some u => l.all (fun b => b.uri != some u)) && urisOk l

/-- Boolean statement that every persisted `destinationGroups` set is free
of duplicates (spec section 3: deduplicated by actor). -/
def destsOk (l : List ActRec) : Bool :=
  l.all (fun a => noDupB (a.destinationGroups.getD []))

/-- The activity-store invariant: at most one row per uri, and no
duplicated destination group on any row. -/
def storeInv (st : DB) : Bool :=
  urisOk st.activities && destsOk st.activities

/-! ### Generic list helper lemmas -/

/-- Updating, through a map, exactly the elements singled out by `q` (all
of which equal the element `u` that `find?` returns) replaces the found
element by the replacement `v`, provided `v` still satisfies the search
predicate. -/
theorem find?_map_of_unique {α : Type} (l : List α) (pr q : α → Bool) (u v : α)
    (hf : l.find? pr = some u) (huniq : ∀ a ∈ l, q a = true → a = u)
    (hqu : q u = true) (hpv : pr v = true) :
    (l.map (fun a => if q a then v else a)).find? pr = some v := by
  induction l with
  | nil => simp [List.find?] at hf
  | cons a l ih =>
    by_cases hqa : q a = true
    · have hau : a = u := huniq a (List.mem_cons_self a l) hqa
      simp only [List.map_cons, hqa, if_true]
      exact List.find?_cons_of_pos _ hpv
    · have hqa2 : q a = false := by
        cases h : q a with
        | true => exact absurd h hqa
        | false => rfl
      simp only [List.map_cons, hqa2, Bool.false_eq_true, if_false]
      by_cases hpa : pr a = true
      · rw [List.find?_cons_of_pos _ hpa] at hf
        have : a = u := by injection hf
        rw [this] at hqa2
        rw [hqu] at hqa2
        cases hqa2
      · have hpa2 : ¬ pr a := by simp [hpa]
        rw [List.find?_cons_of_neg _ hpa2] at hf
        rw [List.find?_cons_of_neg _ hpa2]
        exact ih hf (fun b hb hqb => huniq b (List.mem_cons_of_mem a hb) hqb)

/-- The first `find?` hit with a predicate every matching element shares
with `u` is `u` itself whenever `u` is in the list and the key is unique. -/
theorem find?_of_mem_unique {α : Type} (l : List α) (q : α → Bool) (u : α)
    (hm : u ∈ l) (huniq : ∀ a ∈ l, q a = true → a = u) (hqu : q u = true) :
    l.find? q = some u := by
  induction l with
  | nil => cases hm
  | cons a l ih =>
    by_cases hqa : q a = true
    · have := huniq a (List.mem_cons_self a l) hqa
      rw [List.find?_cons_of_pos _ hqa, this]
    · have hpa2 : ¬ q a := by simp [hqa]
      rw [List.find?_cons_of_neg _ hpa2]
      have hm2 : u ∈ l := by
        cases hm with
        | head => exact absurd hqu hqa
        | tail _ h => exact h
      exact ih hm2 (fun b hb hqb => huniq b (List.mem_cons_of_mem a hb) hqb)

/-! ### Claim C9 -/

/-- Claim C9: for every group name, `followingForGroup` returns the empty
array — a group following collection is always empty, regardless of the
state of the store or of any activities processed. -/
theorem claim_C9_following_empty (st : DB) (name : String) :
    ApGroupService.followingForGroup st name = [] :=
  rfl

/-! ### Claim C5 -/

/-- Claim C5: `createPagedCollection` over `[a,b,c,d,e]` with page size 2
yields, for page 2, the items `[c,d]`, a total of 5 and both navigation
links, and for page 3 the items `[e]` with the next link absent. -/
theorem claim_C5_pagination :
    (ActivityService.createPagedCollection ["a", "b", "c", "d", "e"] 2
      "https://s.example/c" 2).orderedItems = ["c", "d"] ∧
    (ActivityService.createPagedCollection ["a", "b", "c", "d", "e"] 2
      "https://s.example/c" 2).totalItems = 5 ∧
    (ActivityService.createPagedCollection ["a", "b", "c", "d", "e"] 2
      "https://s.example/c" 2).prev.isSome = true ∧
    (ActivityService.createPagedCollection ["a", "b", "c", "d", "e"] 2
      "https://s.example/c" 2).next.isSome = true ∧
    (ActivityService.createPagedCollection ["a", "b", "c", "d", "e"] 2
      "https://s.example/c" 3).orderedItems = ["e"] ∧
    (ActivityService.createPagedCollection ["a", "b", "c", "d", "e"] 2
      "https://s.example/c" 3).next = none :=
  ⟨rfl, rfl, rfl, rfl, rfl, rfl⟩

/-! ### Claim C7 -/

/-- Claim C7: for every user and group actor the URI derivation returns
the stored `uri` field when it is set (truthy), and otherwise the URI
serialised from the home server scheme, host and port with path
`/user/{name}` respectively `/group/{name}`; repeated calls on the same
actor give the same value. -/
theorem claim_C7_id_derivation (u : UserRow) (g : GroupRow) :
    (∀ s, u.uri = some s → s ≠ "" → ApUserService.idForUser u = s) ∧
    (u.uri = none ∨ u.uri = some "" →
      ApUserService.idForUser u =
        uriSerialize u.server.scheme u.server.host u.server.port
          ("/user/" ++ u.name)) ∧
    (ApUserService.idForUser u = ApUserService.idForUser u) ∧
    (∀ s, g.uri = some s → s ≠ "" → GroupService.idForGroup g = s) ∧
    (g.uri = none ∨ g.uri = some "" →
      GroupService.idForGroup g =
        uriSerialize g.server.scheme g.server.host g.server.port
          ("/group/" ++ g.name)) ∧
    (GroupService.idForGroup g = GroupService.idForGroup g) := by
  refine ⟨?_, ?_, rfl, ?_, ?_, rfl⟩
  · intro s hs hne
    simp [ApUserService.idForUser, hs, hne]
  · intro h
    cases h with
    | inl h => simp [ApUserService.idForUser, h]
    | inr h => simp [ApUserService.idForUser, h]
  · intro s hs hne
    simp [GroupService.idForGroup, hs, hne]
  · intro h
    cases h with
    | inl h => simp [GroupService.idForGroup, h]
    | inr h => simp [GroupService.idForGroup, h]

/-- Claim C7 witness: the derivation evaluated at a remote user with a
stored uri and a local group without one. -/
theorem claim_C7_witness :
    ((⟨7, "w", some "https://w.example/user/w", ⟨"https", "w.example", none⟩, []⟩ :
        UserRow).uri = some "https://w.example/user/w") ∧
    ApUserService.idForUser
      ⟨7, "w", some "https://w.example/user/w", ⟨"https", "w.example", none⟩, []⟩ =
      "https://w.example/user/w" ∧
    GroupService.idForGroup
      ⟨3, "gp", none, ⟨"http", "h.example", some 80⟩, none, []⟩ =
      uriSerialize "http" "h.example" (some 80) "/group/gp" :=
  ⟨rfl,
    (claim_C7_id_derivation
      ⟨7, "w", some "https://w.example/user/w", ⟨"https", "w.example", none⟩, []⟩
      ⟨3, "gp", none, ⟨"http", "h.example", some 80⟩, none, []⟩).1
      "https://w.example/user/w" rfl (by decide),
    (claim_C7_id_derivation
      ⟨7, "w", some "https://w.example/user/w", ⟨"https", "w.example", none⟩, []⟩
      ⟨3, "gp", none, ⟨"http", "h.example", some 80⟩, none, []⟩).2.2.2.2.1
      (Or.inl rfl)⟩

/-! ### Claim C6 -/

/-- Claim C6: soft-deleting a post whose owning server passes the
locality test sets `deleted` and saves it, so the post remains retrievable
by its UUID (now flagged deleted); soft-deleting a post whose owning
server fails the locality test throws BadRequest and leaves the store
unchanged. -/
theorem claim_C6_soft_delete (st : DB) (p : PostRow)
    (hfind : st.posts.find? (fun q => q.uuid == p.uuid) = some p)
    (hid : ∀ q ∈ st.posts, q.id = p.id → q = p) :
    (PostService.isLocalPost st p = true →
      (PostService.softDelete st p).1 = .ok { p with deleted := true } ∧
      PostService.findByUuid (PostService.softDelete st p).2 p.uuid =
        .ok { p with deleted := true }) ∧
    (PostService.isLocalPost st p = false →
      (PostService.softDelete st p).1 =
        .error (.badRequest "Can't delete a non-local post") ∧
      (PostService.softDelete st p).2 = st) := by
  constructor
  · intro hl
    have hmem : p ∈ st.posts := List.mem_of_find?_eq_some hfind
    have hany : st.posts.any (fun q => q.id == p.id) = true :=
      List.any_eq_true.mpr ⟨p, hmem, by simp⟩
    have hmap :
        (st.posts.map (fun q => if q.id == p.id then { p with deleted := true } else q)).find?
          (fun q => q.uuid == p.uuid) = some { p with deleted := true } := by
      refine find?_map_of_unique st.posts _ _ p { p with deleted := true } hfind ?_ ?_ ?_
      · intro a ha hqa
        exact hid a ha (by simpa using hqa)
      · simp
      · simp
    refine ⟨by simp [PostService.softDelete, hl], ?_⟩
    simp only [PostService.softDelete, hl, if_true, PostService.save, hany,
      PostService.findByUuid, hmap]
  · intro hl
    constructor <;> simp [PostService.softDelete, hl]

/-- Claim C6 witness: a local post in a two-post store, soft-deleted and
still retrievable (flagged) by its UUID. -/
theorem claim_C6_witness :
    (PostService.isLocalPost
        ⟨⟨"http", "local.example", some 3000⟩, [], [],
          [⟨1, "uu-1", some "http://local.example/post/uu-1",
            ⟨"http", "local.example", some 3000⟩, false⟩,
           ⟨2, "uu-2", some "http://r.example/post/x",
            ⟨"http", "r.example", some 80⟩, false⟩], [], [], [], 0⟩
        ⟨1, "uu-1", some "http://local.example/post/uu-1",
          ⟨"http", "local.example", some 3000⟩, false⟩ = true) ∧
    PostService.findByUuid
      (PostService.softDelete
        ⟨⟨"http", "local.example", some 3000⟩, [], [],
          [⟨1, "uu-1", some "http://local.example/post/uu-1",
            ⟨"http", "local.example", some 3000⟩, false⟩,
           ⟨2, "uu-2", some "http://r.example/post/x",
            ⟨"http", "r.example", some 80⟩, false⟩], [], [], [], 0⟩
        ⟨1, "uu-1", some "http://local.example/post/uu-1",
          ⟨"http", "local.example", some 3000⟩, false⟩).2 "uu-1" =
      .ok ⟨1, "uu-1", some "http://local.example/post/uu-1",
        ⟨"http", "local.example", some 3000⟩, true⟩ :=
  ⟨rfl,
    ((claim_C6_soft_delete
      ⟨⟨"http", "local.example", some 3000⟩, [], [],
        [⟨1, "uu-1", some "http://local.example/post/uu-1",
          ⟨"http", "local.example", some 3000⟩, false⟩,
         ⟨2, "uu-2", some "http://r.example/post/x",
          ⟨"http", "r.example", some 80⟩, false⟩], [], [], [], 0⟩
      ⟨1, "uu-1", some "http://local.example/post/uu-1",
        ⟨"http", "local.example", some 3000⟩, false⟩
      rfl (by decide)).1 rfl).2⟩

/-! ### Claim C3 -/

/-- Claim C3 counterexample: at a concrete group with followers u1, u2,
u3 and an activity sourced by u2, the delivery capability is invoked with
the actor uris of u1 and u3 — not with their inbox uris, which differ. -/
theorem claim_C3_counterexample :
    (ApGroupService.deliverToFollowers c3db c3act c3group).2.delivered =
      [(some "http://r.example/act/9",
        [some "http://r.example/user/u1", some "http://r.example/user/u3"])] ∧
    [some (ApUserService.inboxUriForUser c3u1), some (ApUserService.inboxUriForUser c3u3)] ≠
      [some "http://r.example/user/u1", some "http://r.example/user/u3"] := by
  constructor
  · rfl
  · decide

/-- Claim C3 amended: `deliverToFollowers` invokes the delivery capability
with exactly the actor uris (the stored `uri` column, not the inbox uris)
of the group followers, excluding every follower whose uri equals the uri
of the activity source user: with followers [U1,U2,U3] and an activity
sourced by U2, the target list is exactly the uris of U1 and U3. -/
theorem claim_C3_amended (st : DB) (g row : GroupRow) (act : ActRec)
    (u1 u2 u3 : UserRow) (r1 r2 r3 : String)
    (hrow : st.groups.find? (fun q => q.id == g.id) = some row)
    (hflw : row.followerIds = [some u1.id, some u2.id, some u3.id])
    (hsrc : act.sourceUser = some u2.id)
    (h1 : st.users.find? (fun q => q.id == u1.id) = some u1)
    (h2 : st.users.find? (fun q => q.id == u2.id) = some u2)
    (h3 : st.users.find? (fun q => q.id == u3.id) = some u3)
    (hu1 : u1.uri = some r1) (hu2 : u2.uri = some r2) (hu3 : u3.uri = some r3)
    (hne1 : r1 ≠ r2) (hne3 : r3 ≠ r2) :
    (ApGroupService.deliverToFollowers st act g).1 = .ok act ∧
    (ApGroupService.deliverToFollowers st act g).2.delivered =
      st.delivered ++ [(act.uri, [some r1, some r3])] := by
  have hmain :
      ApGroupService.deliverToFollowers st act g =
        (.ok act,
          { st with
            nextRef := st.nextRef + 1 + 1 + 1
            delivered := st.delivered ++ [(act.uri, [some r1, some r3])] }) := by
    simp only [ApGroupService.deliverToFollowers, GroupService.getFollowers,
      GroupService.findOneWithFollowingUsers, hrow, hflw,
      GroupService.allocInstances, h1, h2, h3, hu1, hu2, hu3,
      ApGroupService.filterMapTargets, hsrc, ActivityService.deliverTo]
    simp [hne1, hne3]
    split <;> rfl
  rw [hmain]
  exact ⟨rfl, rfl⟩

/-- Claim C3 witness: the amended fan-out statement evaluated at the
concrete three-follower fixture. -/
theorem claim_C3_witness :
    (ApGroupService.deliverToFollowers c3db c3act c3group).1 = .ok c3act ∧
    (ApGroupService.deliverToFollowers c3db c3act c3group).2.delivered =
      c3db.delivered ++
        [(c3act.uri, [some "http://r.example/user/u1", some "http://r.example/user/u3"])] :=
  claim_C3_amended c3db c3group c3group c3act c3u1
    ⟨2, "u2", some "http://r.example/user/u2", ⟨"http", "r.example", none⟩, []⟩ c3u3
    "http://r.example/user/u1" "http://r.example/user/u2" "http://r.example/user/u3"
    rfl rfl rfl rfl rfl rfl rfl rfl rfl (by decide) (by decide)

/-! ### Claim C4 -/

/-- Claim C4 counterexample: dispatching an activity of type Update to a
group outbox throws ImATeapot, not the NotImplemented the claim requires,
and dispatching the unrecognised type Foo to a group inbox throws
NotImplemented, not a BadRequest naming the type. -/
theorem claim_C4_counterexample :
    (ApGroupService.acceptPostRequest c4db "g"
      ⟨none, "Update", none, none, none, .undef, none⟩).1 = .error .teapot ∧
    Err.teapot ≠ Err.notImplemented ∧
    (ApGroupService.handleIncoming c4db "g"
      ⟨none, "Foo", none, none, none, .undef, none⟩).1 = .error .notImplemented ∧
    ∀ msg, Err.notImplemented ≠ Err.badRequest msg := by
  refine ⟨rfl, by decide, rfl, ?_⟩
  intro msg h
  cases h

/-- Claim C4 amended: on a user outbox an unrecognised type fails with
BadRequest naming the type and Update fails with NotImplemented; on a
group outbox an unrecognised type fails with BadRequest naming the type
but Update fails with ImATeapot; on a group inbox every type other than
Create and Follow — unrecognised ones and Update alike — fails with
NotImplemented. -/
theorem claim_C4_amended (st : DB) (uname gname t : String) (u : UserRow)
    (g : GroupRow) (p q : Payload)
    (hu : UserService.findLocalByName st uname = .ok u)
    (hg : GroupService.findLocalByName st gname = .ok g)
    (hpt : p.type = t) (hpc : p.content = none)
    (hqt : q.type = "Update") (hqc : q.content = none)
    (hmem : t ∉ (["Create", "Delete", "Update", "Follow", "Add", "Remove", "Like",
      "Block", "Undo", "Reject", "Accept"] : List String)) :
    (ApUserService.acceptPostRequest st uname p).1 =
      .error (.badRequest ("Invalid activity type " ++ t)) ∧
    (ApUserService.acceptPostRequest st uname q).1 = .error .notImplemented ∧
    (ApGroupService.acceptPostRequest st gname p).1 =
      .error (.badRequest ("Invalid activity type " ++ t)) ∧
    (ApGroupService.acceptPostRequest st gname q).1 = .error .teapot ∧
    (ApGroupService.handleIncoming st gname p).1 = .error .notImplemented ∧
    (ApGroupService.handleIncoming st gname q).1 = .error .notImplemented := by
  simp only [List.mem_cons, List.not_mem_nil, not_or] at hmem
  obtain ⟨hC, hD, hU, hF, hA, hR, hL, hB, hUn, hRj, hAc, -⟩ := hmem
  refine ⟨?_, ?_, ?_, ?_, ?_, ?_⟩
  · simp [ApUserService.acceptPostRequest, hu, hpc, hpt, hC, hD, hU, hF, hA, hR,
      hL, hB, hUn]
  · simp [ApUserService.acceptPostRequest, hu, hqc, hqt]
  · simp [ApGroupService.acceptPostRequest, hg, hpt, hC, hD, hU, hF, hA, hR, hL,
      hB, hUn, hRj, hAc]
  · simp [ApGroupService.acceptPostRequest, hg, hqt]
  · simp [ApGroupService.handleIncoming, hg, hpt, hC, hF]
  · simp [ApGroupService.handleIncoming, hg, hqt]

/-- Claim C4 witness: the amended dispatch taxonomy evaluated at the
concrete alice/g fixture with the unrecognised type Foo. -/
theorem claim_C4_witness :
    (ApUserService.acceptPostRequest c4db "alice"
      ⟨none, "Foo", none, none, none, .undef, none⟩).1 =
      .error (.badRequest ("Invalid activity type " ++ "Foo")) ∧
    (ApUserService.acceptPostRequest c4db "alice"
      ⟨none, "Update", none, none, none, .undef, none⟩).1 = .error .notImplemented ∧
    (ApGroupService.acceptPostRequest c4db "g"
      ⟨none, "Foo", none, none, none, .undef, none⟩).1 =
      .error (.badRequest ("Invalid activity type " ++ "Foo")) ∧
    (ApGroupService.acceptPostRequest c4db "g"
      ⟨none, "Update", none, none, none, .undef, none⟩).1 = .error .teapot ∧
    (ApGroupService.handleIncoming c4db "g"
      ⟨none, "Foo", none, none, none, .undef, none⟩).1 = .error .notImplemented ∧
    (ApGroupService.handleIncoming c4db "g"
      ⟨none, "Update", none, none, none, .undef, none⟩).1 = .error .notImplemented :=
  claim_C4_amended c4db "alice" "g" "Foo"
    ⟨5, "alice", some "http://local.example/user/alice",
      ⟨"http", "local.example", some 3000⟩, []⟩
    ⟨1, "g", some "http://local.example/group/g",
      ⟨"http", "local.example", some 3000⟩,
      some ⟨"http://local.example/group/g/followers/"⟩, []⟩
    ⟨none, "Foo", none, none, none, .undef, none⟩
    ⟨none, "Update", none, none, none, .undef, none⟩
    rfl rfl rfl rfl rfl rfl (by decide)

/-! ### Claim C2 -/

/-- Claim C2: in a state where bob (user row 1) is already in the
follower relation of group g and the original Follow activity is already
persisted, re-submitting the identical Follow does not return false: the
`includes(user)` check of `addFollower` compares freshly loaded entity
objects by reference, so it never detects the existing follower.  The
call reports a newly added follower, duplicates row 1 in the follower
relation, and synthesizes and delivers a second Accept to bob. -/
theorem claim_C2_follow_not_idempotent :
    c2db.groups.map (fun g => g.followerIds) = [[some 1]] ∧
    (ApGroupService.handleIncoming c2db "g" c2follow).1 ≠ .ok (.bool false) ∧
    (ApGroupService.handleIncoming c2db "g" c2follow).2.groups.map
      (fun g => g.followerIds) = [[some 1, some 1]] ∧
    (ApGroupService.handleIncoming c2db "g" c2follow).2.delivered =
      [(none, [some "http://r.example/user/bob"])] := by
  refine ⟨rfl, ?_, rfl, rfl⟩
  decide

/-! ### Claim C8 -/

/-- Claim C8: with the delivery capability rejecting for the only fan-out
target, the rejection is not surfaced to the caller: `deliverToFollowers`
never awaits the `deliverTo` promise, so it resolves with the activity as
a success (the InternalServerError catch is unreachable), while the
attempt was made and the persisted activity store is left untouched. -/
theorem claim_C8_delivery_failure_swallowed :
    "http://r.example/user/u2" ∈ c8db.deliverFails ∧
    (ActivityService.deliverTo c8db c8act [some "http://r.example/user/u2"]).1 =
      .error .deliveryFailed ∧
    (ApGroupService.deliverToFollowers c8db c8act c8group).2.delivered =
      [(some "http://r.example/act/9", [some "http://r.example/user/u2"])] ∧
    (ApGroupService.deliverToFollowers c8db c8act c8group).1 = .ok c8act ∧
    (ApGroupService.deliverToFollowers c8db c8act c8group).2.activities =
      c8db.activities := by
  exact ⟨by decide, rfl, rfl, rfl, rfl⟩

/-! ### Helper lemmas about the embedded services -/

/-- `findLocalByName` for users succeeds exactly on the first row matching
name and local server. -/
theorem userFindLocal_ok (st : DB) (n : String) (u : UserRow) :
    UserService.findLocalByName st n = .ok u ↔
      st.users.find? (fun q => q.name == n && q.server == st.localServer) = some u := by
  unfold UserService.findLocalByName
  cases h : st.users.find? (fun q => q.name == n && q.server == st.localServer) <;>
    simp [h]

/-- An activity save only writes the activity table: the user table is
untouched. -/
theorem activitySave_users (st : DB) (e : ActRec) :
    (ActivityService.save st e).2.users = st.users := by
  unfold ActivityService.save
  cases hk : ActivityService.keyOf e with
  | none => rfl
  | some u =>
    cases hf : st.activities.find? (fun a => a.uri == some u) with
    | none => simp [hf]
    | some a0 => simp [hf]

/-- An activity save only writes the activity table: the post table is
untouched. -/
theorem activitySave_posts (st : DB) (e : ActRec) :
    (ActivityService.save st e).2.posts = st.posts := by
  unfold ActivityService.save
  cases hk : ActivityService.keyOf e with
  | none => rfl
  | some u =>
    cases hf : st.activities.find? (fun a => a.uri == some u) with
    | none => simp [hf]
    | some a0 => simp [hf]

/-- An activity save only writes the activity table: the configured local
server is untouched. -/
theorem activitySave_localServer (st : DB) (e : ActRec) :
    (ActivityService.save st e).2.localServer = st.localServer := by
  unfold ActivityService.save
  cases hk : ActivityService.keyOf e with
  | none => rfl
  | some u =>
    cases hf : st.activities.find? (fun a => a.uri == some u) with
    | none => simp [hf]
    | some a0 => simp [hf]

/-- Replacing, by a keyed map, every row whose id matches keeps id-based
uniqueness pointing at the replacement. -/
theorem uniq_after_user_update (l : List UserRow) (u v : UserRow) :
    ∀ q ∈ l.map (fun a => if a.id == u.id then v else a), q.id = u.id → q = v := by
  intro q hq hqid
  rw [List.mem_map] at hq
  obtain ⟨a, ha, rfl⟩ := hq
  by_cases h : (a.id == u.id) = true
  · simp [h]
  · rw [if_neg h] at hqid ⊢
    exact absurd (by simpa using hqid) h

/-- The post lookup of the Like path depends only on the post table. -/
theorem getPost_congr (st1 st2 : DB) (h : st1.posts = st2.posts) (x : Option String) :
    ApPostService.getPostEntityByUri st1 x = ApPostService.getPostEntityByUri st2 x := by
  unfold ApPostService.getPostEntityByUri
  rw [h]

/-- One Like dispatch through the user outbox: the sending user row gains
one (possibly duplicate) entry for the liked post, the post table and the
local-server configuration are untouched. -/
theorem like_step (st : DB) (uname : String) (u : UserRow) (p : Payload) (post : PostRow)
    (hu : UserService.findLocalByName st uname = .ok u)
    (huniq : ∀ q ∈ st.users, q.id = u.id → q = u)
    (ht : p.type = "Like") (hc : p.content = none)
    (hp : ApPostService.getPostEntityByUri st p.object = .ok post) :
    (ApUserService.acceptPostRequest st uname p).2.users =
      st.users.map (fun q => if q.id == u.id then
        { u with likedPostIds := u.likedPostIds ++ [post.id] } else q) ∧
    (ApUserService.acceptPostRequest st uname p).2.posts = st.posts ∧
    (ApUserService.acceptPostRequest st uname p).2.localServer = st.localServer := by
  have hfind := (userFindLocal_ok st uname u).mp hu
  have hmem : u ∈ st.users := List.mem_of_find?_eq_some hfind
  have hbyid : st.users.find? (fun q => q.id == u.id) = some u :=
    find?_of_mem_unique st.users _ u hmem
      (fun a ha hqa => huniq a ha (by simpa using hqa)) (by simp)
  have hany : st.users.any (fun q => q.id == u.id) = true :=
    List.any_eq_true.mpr ⟨u, hmem, by simp⟩
  refine ⟨?_, ?_, ?_⟩ <;>
    simp [ApUserService.acceptPostRequest, hu, hc, ht, hp, UserService.addLike,
      UserService.getLikes, hbyid, UserService.save, hany, activitySave_users,
      activitySave_posts, activitySave_localServer]

/-! ### Claim C10 -/

/-- Claim C10: `addLike` appends unconditionally, so dispatching the same
Like twice from the same user through the user outbox leaves two entries
for the post in the liked relation — no dedup exists anywhere on the Like
path. -/
theorem claim_C10_like_no_dedup (st : DB) (uname : String) (u : UserRow)
    (p : Payload) (post : PostRow)
    (hu : UserService.findLocalByName st uname = .ok u)
    (huniq : ∀ q ∈ st.users, q.id = u.id → q = u)
    (ht : p.type = "Like") (hc : p.content = none)
    (hp : ApPostService.getPostEntityByUri st p.object = .ok post) :
    UserService.findLocalByName
        ((ApUserService.acceptPostRequest
          ((ApUserService.acceptPostRequest st uname p).2) uname p).2) uname =
      .ok { u with likedPostIds := u.likedPostIds ++ [post.id, post.id] } ∧
    (u.likedPostIds ++ [post.id, post.id]).count post.id =
      u.likedPostIds.count post.id + 2 := by
  have hfind := (userFindLocal_ok st uname u).mp hu
  have hpru : (u.name == uname && u.server == st.localServer) = true :=
    List.find?_some
      (p := fun (q : UserRow) => q.name == uname && q.server == st.localServer) hfind
  obtain ⟨s1u, s1p, s1l⟩ := like_step st uname u p post hu huniq ht hc hp
  set st1 := (ApUserService.acceptPostRequest st uname p).2 with hst1
  have hu1 : UserService.findLocalByName st1 uname =
      .ok { u with likedPostIds := u.likedPostIds ++ [post.id] } := by
    rw [userFindLocal_ok, s1l, s1u]
    exact find?_map_of_unique st.users _ _ u _ hfind
      (fun a ha hqa => huniq a ha (by simpa using hqa)) (by simp) hpru
  have huniq1 : ∀ q ∈ st1.users,
      q.id = ({ u with likedPostIds := u.likedPostIds ++ [post.id] } : UserRow).id →
      q = { u with likedPostIds := u.likedPostIds ++ [post.id] } := by
    rw [s1u]
    exact uniq_after_user_update st.users u _
  have hp1 : ApPostService.getPostEntityByUri st1 p.object = .ok post := by
    rw [getPost_congr st1 st s1p]
    exact hp
  obtain ⟨s2u, s2p, s2l⟩ :=
    like_step st1 uname { u with likedPostIds := u.likedPostIds ++ [post.id] }
      p post hu1 huniq1 ht hc hp1
  constructor
  · rw [userFindLocal_ok, s2l, s1l, s2u, s1u]
    have hres := find?_map_of_unique
      (st.users.map (fun q => if q.id == u.id then
        { u with likedPostIds := u.likedPostIds ++ [post.id] } else q))
      (fun q => q.name == uname && q.server == st.localServer)
      (fun q => q.id == u.id)
      { u with likedPostIds := u.likedPostIds ++ [post.id] }
      { u with likedPostIds := (u.likedPostIds ++ [post.id]) ++ [post.id] }
      (by
        exact find?_map_of_unique st.users _ _ u _ hfind
          (fun a ha hqa => huniq a ha (by simpa using hqa)) (by simp) hpru)
      (by
        intro a ha hqa
        exact uniq_after_user_update st.users u _ a ha (by simpa using hqa))
      (by simp) hpru
    rw [hres]
    rw [List.append_assoc]
    rfl
  · rw [List.count_append]
    simp

/-- Claim C10 witness: two Like dispatches by alice for the same post,
starting from an empty liked relation, leave exactly two entries. -/
theorem claim_C10_witness :
    UserService.findLocalByName c10db "alice" = .ok c10user ∧
    ApPostService.getPostEntityByUri c10db c10like.object = .ok c10post ∧
    UserService.findLocalByName
        ((ApUserService.acceptPostRequest
          ((ApUserService.acceptPostRequest c10db "alice" c10like).2) "alice"
          c10like).2) "alice" =
      .ok { c10user with
        likedPostIds := c10user.likedPostIds ++ [c10post.id, c10post.id] } :=
  ⟨rfl, rfl,
    (claim_C10_like_no_dedup c10db "alice" c10user c10like c10post rfl (by decide)
      rfl rfl rfl).1⟩

/-! ### Lemmas about the store invariant -/

/-- A list all of whose members differ from `x` contains no copy of it. -/
theorem count_zero_of_all_ne (l : List Nat) (x : Nat)
    (h : l.all (fun y => y != x) = true) : l.count x = 0 := by
  induction l with
  | nil => rfl
  | cons y l ih =>
    simp only [List.all_cons, Bool.and_eq_true] at h
    have h1 : y ≠ x := by simpa [bne_iff_ne] using h.1
    rw [List.count_cons, ih h.2]
    simp [beq_iff_eq, h1]

/-- A duplicate-free list contains any id at most once. -/
theorem count_le_one_of_noDupB (l : List Nat) (x : Nat) (h : noDupB l = true) :
    l.count x ≤ 1 := by
  induction l with
  | nil => simp
  | cons y l ih =>
    simp only [noDupB, Bool.and_eq_true] at h
    rw [List.count_cons]
    by_cases hxy : x = y
    · subst hxy
      rw [count_zero_of_all_ne l x h.1]
      simp
    · rw [if_neg (by simp [beq_iff_eq]; exact Ne.symm hxy)]
      simpa using ih h.2

/-- Appending a fresh id preserves freedom from duplicates. -/
theorem noDupB_append_one (l : List Nat) (y : Nat) (h : noDupB l = true)
    (hy : y ∉ l) : noDupB (l ++ [y]) = true := by
  induction l with
  | nil => rfl
  | cons x l ih =>
    simp only [noDupB, Bool.and_eq_true] at h
    have hyx : y ≠ x := by
      intro he
      exact hy (he ▸ List.mem_cons_self x l)
    have hy2 : y ∉ l := fun hm => hy (List.mem_cons_of_mem x hm)
    simp only [List.cons_append, noDupB, Bool.and_eq_true]
    refine ⟨?_, ih h.2 hy2⟩
    simp [List.all_append, h.1, bne_iff_ne, hyx]

/-- The destination union keeps the accumulated list duplicate-free. -/
theorem addAll_noDupB (ys xs : List Nat) (h : noDupB xs = true) :
    noDupB (ActivityService.addAll xs ys) = true := by
  induction ys generalizing xs with
  | nil => simpa [ActivityService.addAll] using h
  | cons y ys ih =>
    simp only [ActivityService.addAll]
    by_cases hm : y ∈ xs
    · rw [if_pos hm]
      exact ih xs h
    · rw [if_neg hm]
      exact ih _ (noDupB_append_one xs y h hm)

/-- Pointwise equal Boolean predicates agree on `all` over a row list. -/
theorem all_rows_ext (p q : ActRec → Bool) :
    ∀ l : List ActRec, (∀ a ∈ l, p a = q a) → l.all p = l.all q
  | [], _ => rfl
  | a :: l, h => by
    simp only [List.all_cons, h a (List.mem_cons_self a l)]
    rw [all_rows_ext p q l (fun b hb => h b (List.mem_cons_of_mem a hb))]

/-- Appending a row whose uri clashes with no existing row preserves the
uri-uniqueness invariant. -/
theorem urisOk_append (l : List ActRec) (nr : ActRec) (h : urisOk l = true)
    (hnr : ∀ u, nr.uri = some u → l.all (fun a => a.uri != some u) = true) :
    urisOk (l ++ [nr]) = true := by
  induction l with
  | nil =>
    cases hu : nr.uri <;> simp [urisOk, hu]
  | cons a l ih =>
    simp only [urisOk, Bool.and_eq_true] at h
    have hnr2 : ∀ u, nr.uri = some u → l.all (fun b => b.uri != some u) = true := by
      intro u hu
      have h2 := hnr u hu
      simp only [List.all_cons, Bool.and_eq_true] at h2
      exact h2.2
    simp only [List.cons_append, urisOk, Bool.and_eq_true]
    refine ⟨?_, ih h.2 hnr2⟩
    cases hu : a.uri with
    | none => rfl
    | some v =>
      show ((l ++ [nr]).all fun b => b.uri != some v) = true
      rw [hu] at h
      have h1 : (l.all fun b => b.uri != some v) = true := h.1
      rw [List.all_append, Bool.and_eq_true]
      refine ⟨h1, ?_⟩
      simp only [List.all_cons, List.all_nil, Bool.and_true]
      cases hnru : nr.uri with
      | none => rfl
      | some u =>
        have h3 := hnr u hnru
        simp only [List.all_cons, Bool.and_eq_true, hu] at h3
        have hvu : v ≠ u := by simpa [bne_iff_ne] using h3.1
        simp [bne_iff_ne, Ne.symm hvu]

/-- Appending a row with a duplicate-free destination set preserves the
destination invariant. -/
theorem destsOk_append (l : List ActRec) (nr : ActRec) (h : destsOk l = true)
    (hnr : noDupB (nr.destinationGroups.getD []) = true) :
    destsOk (l ++ [nr]) = true := by
  simp only [destsOk, List.all_append, Bool.and_eq_true]
  exact ⟨h, by simpa using hnr⟩

/-- A uri-preserving row transformation preserves the uri-uniqueness
invariant. -/
theorem urisOk_map (l : List ActRec) (f : ActRec → ActRec)
    (hf : ∀ a, (f a).uri = a.uri) : urisOk (l.map f) = urisOk l := by
  induction l with
  | nil => rfl
  | cons a l ih =>
    simp only [List.map_cons, urisOk]
    rw [hf a, ih]
    congr 1
    cases hu : a.uri with
    | none => rfl
    | some v =>
      show ((l.map f).all fun b => b.uri != some v) = (l.all fun b => b.uri != some v)
      rw [List.all_map]
      exact all_rows_ext _ _ l (fun b _ => by simp [hf b])

/-- Every member of a list satisfying the destination invariant has a
duplicate-free destination set. -/
theorem destsOk_mem (l : List ActRec) (a : ActRec) (h : destsOk l = true)
    (ha : a ∈ l) : noDupB (a.destinationGroups.getD []) = true := by
  rw [destsOk, List.all_eq_true] at h
  exact h a ha

/-- No element of a list all of whose uris differ from `some u` passes a
filter for that uri. -/
theorem filter_nil_of_all_ne (l : List ActRec) (u : String)
    (h : l.all (fun a => a.uri != some u) = true) :
    l.filter (fun a => a.uri == some u) = [] := by
  induction l with
  | nil => rfl
  | cons a l ih =>
    simp only [List.all_cons, Bool.and_eq_true] at h
    rw [List.filter_cons, if_neg (by simpa [bne] using h.1)]
    exact ih h.2

/-- Under the uri-uniqueness invariant at most one row carries any given
uri. -/
theorem filter_len_le_one_of_urisOk (l : List ActRec) (u : String)
    (h : urisOk l = true) :
    (l.filter (fun a => a.uri == some u)).length ≤ 1 := by
  induction l with
  | nil => simp
  | cons a l ih =>
    simp only [urisOk, Bool.and_eq_true] at h
    rw [List.filter_cons]
    by_cases hx : (a.uri == some u) = true
    · rw [if_pos hx]
      have hau : a.uri = some u := by simpa using hx
      rw [hau] at h
      rw [filter_nil_of_all_ne l u h.1]
      simp
    · rw [if_neg hx]
      exact ih h.2

/-- The invariant depends only on the activity table. -/
theorem storeInv_congr (st1 st2 : DB) (h : st1.activities = st2.activities) :
    storeInv st1 = storeInv st2 := by
  rw [storeInv, storeInv, h]

/-- The upsert of the activity store preserves the store invariant: a
merge keeps all uris and dedups the destination union, an insert stamps a
uri no persisted row carries. -/
theorem storeInv_save (st : DB) (e : ActRec) (h : storeInv st = true) :
    storeInv (ActivityService.save st e).2 = true := by
  simp only [storeInv, Bool.and_eq_true] at h
  obtain ⟨hu, hd⟩ := h
  unfold ActivityService.save
  cases hk : ActivityService.keyOf e with
  | none =>
    simp only [storeInv, Bool.and_eq_true]
    exact ⟨urisOk_append _ _ hu (fun u h2 => Option.noConfusion h2),
      destsOk_append _ _ hd (addAll_noDupB _ [] rfl)⟩
  | some u =>
    cases hf : st.activities.find? (fun a => a.uri == some u) with
    | none =>
      have hall : st.activities.all (fun a => a.uri != some u) = true := by
        rw [List.all_eq_true]
        intro a ha
        have h2 := List.find?_eq_none.mp hf a ha
        simpa [bne] using h2
      simp only [hf, storeInv, Bool.and_eq_true]
      constructor
      · refine urisOk_append _ _ hu ?_
        intro v hv
        have hv2 : u = v := by
          simpa using hv
        subst hv2
        exact hall
      · exact destsOk_append _ _ hd (addAll_noDupB _ [] rfl)
    | some a0 =>
      have hfpres : ∀ a : ActRec,
          ((if a.uri == some u then ActivityService.mergeRec a e else a)).uri = a.uri := by
        intro a
        by_cases hx : (a.uri == some u) = true
        · simp [hx, ActivityService.mergeRec]
        · simp [hx]
      simp only [hf, storeInv, Bool.and_eq_true]
      constructor
      · rw [urisOk_map _ _ hfpres]
        exact hu
      · simp only [destsOk, List.all_map]
        rw [List.all_eq_true]
        intro a ha
        by_cases hx : (a.uri == some u) = true
        · simp only [Function.comp_apply, hx, if_true]
          have hda := destsOk_mem st.activities a hd ha
          simpa [ActivityService.mergeRec] using
            addAll_noDupB (e.destinationGroups.getD []) _ hda
        · simp only [Function.comp_apply, hx, Bool.false_eq_true, if_false]
          exact destsOk_mem st.activities a hd ha

/-! ### Which operations leave the activity table untouched -/

/-- Materialising follower instances only bumps the allocation counter. -/
theorem allocInstances_acts (ids : List (Option Nat)) (st : DB) :
    (GroupService.allocInstances st ids).2.activities = st.activities := by
  induction ids generalizing st with
  | nil => rfl
  | cons x ids ih =>
    cases x with
    | none => exact ih st
    | some uid => exact ih _

/-- A user lookup by uri only bumps the allocation counter. -/
theorem userFindByUri_acts (st : DB) (x : Option String) :
    (UserService.findByUri st x).2.activities = st.activities := by
  unfold UserService.findByUri
  cases x with
  | none => rfl
  | some u =>
    cases hf : st.users.find? (fun r => r.uri == some u) with
    | none => simp [hf]
    | some r => simp [hf]

/-- A group save only writes the group table. -/
theorem groupSave_acts (st : DB) (g : GroupRow) :
    (GroupService.save st g).activities = st.activities := by
  unfold GroupService.save
  split <;> rfl

/-- Loading a group with its followers does not write the activity
table. -/
theorem findOneFollowers_acts (st : DB) (gid : Nat) :
    (GroupService.findOneWithFollowingUsers st gid).2.activities = st.activities := by
  unfold GroupService.findOneWithFollowingUsers
  cases hf : st.groups.find? (fun g => g.id == gid) with
  | none => rfl
  | some row =>
    simp only [hf]
    exact allocInstances_acts _ _

/-- Adding a follower writes the group table only. -/
theorem addFollower_acts (st : DB) (g : GroupRow) (u? : Option UInst) :
    (GroupService.addFollower st g u?).2.activities = st.activities := by
  unfold GroupService.addFollower
  split
  · next st1 heq =>
    have h2 := congrArg (fun r => r.2.activities) heq
    simp only [findOneFollowers_acts] at h2
    simpa using h2.symm
  · next row insts st1 heq =>
    have h2 := congrArg (fun r => r.2.activities) heq
    simp only [findOneFollowers_acts] at h2
    split
    · simpa using h2.symm
    · simp only [groupSave_acts]
      simpa using h2.symm

/-- A delivery attempt only appends to the delivery log. -/
theorem deliverTo_acts (st : DB) (a : ActRec) (ts : List (Option String)) :
    (ActivityService.deliverTo st a ts).2.activities = st.activities := by
  unfold ActivityService.deliverTo
  split <;> rfl

/-- The fan-out path never writes the activity table. -/
theorem deliverToFollowers_acts (st : DB) (a : ActRec) (g : GroupRow) :
    (ApGroupService.deliverToFollowers st a g).2.activities = st.activities := by
  unfold ApGroupService.deliverToFollowers
  split
  · next st1 heq =>
    have h2 := congrArg (fun r => r.2.activities) heq
    simp only [GroupService.getFollowers, findOneFollowers_acts] at h2
    simpa using h2.symm
  · next row insts st1 heq =>
    have h2 := congrArg (fun r => r.2.activities) heq
    simp only [GroupService.getFollowers, findOneFollowers_acts] at h2
    split
    · simpa using h2.symm
    · simp only [deliverTo_acts]
      simpa using h2.symm

/-! ### The invariant is preserved by the dispatch paths of claim C1 -/

/-- The group outbox dispatch preserves the store invariant: its only
writes to the activity table go through the upsert. -/
theorem storeInv_acceptPostRequestGroup (st : DB) (gn : String) (d : Payload)
    (h : storeInv st = true) :
    storeInv (ApGroupService.acceptPostRequest st gn d).2 = true := by
  unfold ApGroupService.acceptPostRequest
  cases hg : GroupService.findLocalByName st gn with
  | error e => simpa using h
  | ok g =>
    simp only []
    split
    · -- Accept branch
      cases hf : ActivityService.findByUri st d.object with
      | none => simpa using h
      | some request =>
        simp only [hf]
        split
        · next val st2 heq =>
          have h2 := congrArg (fun r => r.2.activities) heq
          simp only [deliverTo_acts] at h2
          rw [storeInv_congr st2 (ActivityService.save st
            { rid := 0, uri := none, type := d.type, sourceUser := none,
              sourceGroup := some g.id, targetUser := none, targetPost := none,
              destinationGroups := none, destinationUsers := [request.sourceUser],
              activityObject := d }).2 (by simpa using h2.symm)]
          exact storeInv_save st _ h
        · next e2 st2 heq =>
          have h2 := congrArg (fun r => r.2.activities) heq
          simp only [deliverTo_acts] at h2
          rw [storeInv_congr st2 (ActivityService.save st
            { rid := 0, uri := none, type := d.type, sourceUser := none,
              sourceGroup := some g.id, targetUser := none, targetPost := none,
              destinationGroups := none, destinationUsers := [request.sourceUser],
              activityObject := d }).2 (by simpa using h2.symm)]
          exact storeInv_save st _ h
    · split
      · simpa using h
      · simpa using h

/-- The group inbox path preserves the store invariant: every write to the
activity table goes through the upsert of the store, and the recursive
Accept dispatch is covered by the outbox lemma. -/
theorem storeInv_handleIncoming (st : DB) (gn : String) (d : Payload)
    (h : storeInv st = true) :
    storeInv (ApGroupService.handleIncoming st gn d).2 = true := by
  unfold ApGroupService.handleIncoming
  cases hg : GroupService.findLocalByName st gn with
  | error e => simpa using h
  | ok g =>
    simp only []
    split
    · -- Create branch
      split
      · -- known uri: audience handling then save and fan out
        split
        · simpa using h
        · split
          · next a2 st2 heq =>
            have h2 := congrArg (fun r => r.2.activities) heq
            simp only [deliverToFollowers_acts] at h2
            show storeInv st2 = true
            rw [storeInv_congr st2 _ h2.symm]
            exact storeInv_save st _ h
          · next e2 st2 heq =>
            have h2 := congrArg (fun r => r.2.activities) heq
            simp only [deliverToFollowers_acts] at h2
            show storeInv st2 = true
            rw [storeInv_congr st2 _ h2.symm]
            exact storeInv_save st _ h
      · simpa using h
    · split
      · -- Follow branch
        split
        · next e2 st3 heq =>
          have h2 := congrArg (fun r => r.2.activities) heq
          simp only [addFollower_acts] at h2
          show storeInv st3 = true
          rw [storeInv_congr st3 _ h2.symm]
          apply storeInv_save
          rw [storeInv_congr _ st (userFindByUri_acts st d.actor)]
          exact h
        · next result st3 heq =>
          have h2 := congrArg (fun r => r.2.activities) heq
          simp only [addFollower_acts] at h2
          have hst3 : storeInv st3 = true := by
            rw [storeInv_congr st3 _ h2.symm]
            apply storeInv_save
            rw [storeInv_congr _ st (userFindByUri_acts st d.actor)]
            exact h
          split
          · split
            · simpa using hst3
            · next user huser =>
              split
              · next resp st4 heq2 =>
                show storeInv st4 = true
                have h4 := storeInv_acceptPostRequestGroup st3 g.name
                  (ActivityService.createAcceptActivity g.uri d.id user.uri) hst3
                rw [heq2] at h4
                simpa using h4
              · next e3 st4 heq2 =>
                show storeInv st4 = true
                have h4 := storeInv_acceptPostRequestGroup st3 g.name
                  (ActivityService.createAcceptActivity g.uri d.id user.uri) hst3
                rw [heq2] at h4
                simpa using h4
          · simpa using hst3
      · simpa using h

/-! ### Claim C1 -/

/-- Claim C1: delivering the same payload (carrying an external uri) to
the same group inbox twice leaves at most one Activity record for that
uri, and no record — in particular the one for that uri — holds the
receiving group more than once in its `destinationGroups`: the inbound
path accumulates without duplicating. -/
theorem claim_C1_inbound_dedup (st : DB) (gname : String) (g : GroupRow)
    (data : Payload) (uri : String)
    (hg : GroupService.findLocalByName st gname = .ok g)
    (hid : data.id = some uri)
    (hinv : storeInv st = true) :
    (((ApGroupService.handleIncoming
        ((ApGroupService.handleIncoming st gname data).2) gname
        data).2.activities.filter (fun a => a.uri == some uri)).length ≤ 1) ∧
    (∀ a ∈ (ApGroupService.handleIncoming
        ((ApGroupService.handleIncoming st gname data).2) gname data).2.activities,
      a.uri = some uri → (a.destinationGroups.getD []).count g.id ≤ 1) := by
  have h1 := storeInv_handleIncoming st gname data hinv
  have h2 := storeInv_handleIncoming _ gname data h1
  simp only [storeInv, Bool.and_eq_true] at h2
  exact ⟨filter_len_le_one_of_urisOk _ _ h2.1,
    fun a ha _ => count_le_one_of_noDupB _ _ (destsOk_mem _ a h2.2 ha)⟩

/-- Claim C1 witness: the double delivery evaluated on a store with one
local group, an unknown external Follow uri, and an empty activity
table. -/
theorem claim_C1_witness :
    GroupService.findLocalByName c1db "g" = .ok c1group ∧
    c1follow.id = some "http://r.example/act/f1" ∧
    storeInv c1db = true ∧
    (((ApGroupService.handleIncoming
        ((ApGroupService.handleIncoming c1db "g" c1follow).2) "g"
        c1follow).2.activities.filter
          (fun a => a.uri == some "http://r.example/act/f1")).length ≤ 1) :=
  ⟨rfl, rfl, rfl,
    (claim_C1_inbound_dedup c1db "g" c1group c1follow "http://r.example/act/f1"
      rfl rfl rfl).1⟩

end Themis
